import Mathlib

/-!
Shallow embedding of `src/organize.py` (game-organizer).

The script classifies game files by a region tag parsed from the filename
and by the first alphanumeric character of the title, then copies each file
into a directory derived from that pair.  We embed the classification and
routing logic: the `REGION` regex search, the multi-region disambiguation,
the `ALPHA_NUMERIC` bucket extraction, `get_destination_dir`, `move_game`,
and the `organize` loop (directory walking, logging and the OS copy are
modelled as data: log events and copy actions).
-/

namespace GameOrganizer

/-- Character class of the `REGION` regex group `[A-Za-z0-9 ,]`. -/
def isRegionChar (c : Char) : Bool :=
  c.isAlphanum || c == ' ' || c == ','

/-- Character class of the `ALPHA_NUMERIC` regex `[A-Za-z0-9]`. -/
def isAlphaNumChar (c : Char) : Bool :=
  c.isAlphanum

/-- `REGION.search`: leftmost match of `\(([A-Za-z0-9 ,]+)\)`, returning the
group.  At each position: an opening paren, then a non-empty maximal run of
allowed characters, then a closing paren.  (Backtracking cannot shorten the
greedy run, since ending it earlier leaves an allowed character where `)` is
required, so the maximal-run reading is exact.) -/
def regionSearchAux : List Char → Option (List Char)
  | [] => none
  | c :: t =>
    if c = '(' then
      let run := t.takeWhile isRegionChar
      let rest := t.dropWhile isRegionChar
      if run ≠ [] ∧ rest.head? = some ')' then some run
      else regionSearchAux t
    else regionSearchAux t

/-- `REGION.search(game)`, as used in `move_game`. -/
def regionSearch (game : String) : Option (List Char) :=
  regionSearchAux game.data

/-- Boolean prefix test on character lists. -/
def prefixB : List Char → List Char → Bool
  | [], _ => true
  | _ :: _, [] => false
  | a :: n, b :: l => (a == b) && prefixB n l

/-- Boolean substring test: Python's `needle in haystack` on strings. -/
def isInfixB (needle : List Char) : List Char → Bool
  | [] => needle.isEmpty
  | c :: t => prefixB needle (c :: t) || isInfixB needle t

/-- Python `str.strip()`: drop whitespace from both ends. -/
def strip (l : List Char) : List Char :=
  ((l.dropWhile Char.isWhitespace).reverse.dropWhile Char.isWhitespace).reverse

/-- Python `str.split(',')` on character lists. -/
def splitComma : List Char → List (List Char)
  | [] => [[]]
  | c :: t =>
    let r := splitComma t
    if c = ',' then [] :: r
    else (c :: r.headI) :: r.tail

/-- The region-resolution logic of `move_game` (lines 78-92): search for the
parenthesized group; on a comma, `USA` wins if it is a substring, otherwise
the first comma-separated piece stripped; with no match, default `USA`. -/
def resolveRegion (game : String) : String :=
  match regionSearch game with
  | some region =>
    if ',' ∈ region then
      if isInfixB ['U', 'S', 'A'] region then "USA"
      else ⟨strip (region.takeWhile (fun c => c != ','))⟩
    else ⟨region⟩
  | none => "USA"

/-- The script's CLI configuration: `--input-dir` and `--output-dir`. -/
structure Config where
  input_dir : String
  output_dir : String

/-- `posixpath.join` for two components, on character lists. -/
def joinChars (a b : List Char) : List Char :=
  if b.head? = some '/' then b
  else if a = [] ∨ a.getLast? = some '/' then a ++ b
  else a ++ '/' :: b

/-- `os.path.join` for two components. -/
def pathJoin (a b : String) : String :=
  ⟨joinChars a.data b.data⟩

/-- `get_destination_dir(region, first_char)` (lines 71-75). -/
def get_destination_dir (output_dir region first_char : String) : String :=
  if region = "Europe" ∨ region = "Japan" ∨ region = "USA" then
    pathJoin (pathJoin output_dir region) first_char
  else
    pathJoin (pathJoin output_dir "Other") region

/-- Observable log events of the run. -/
inductive LogEvent where
  | warnNoRegion (game : String)
  | warnNoAlnum (game : String)
  | infoCopy (source destination : String)
  | infoSkipBios (game : String)
  deriving DecidableEq, Repr

/-- The copy `move_game` performs, with the fields it derives. -/
structure CopyAction where
  game : String
  region : String
  first_char : String
  destination_dir : String
  source : String
  destination : String
  deriving DecidableEq, Repr

/-- `move_game(game)` (lines 77-114): resolve the region (warning on
fallback), find the first alphanumeric character (skip with a warning if
none), normalize a digit to `#`, compute the destination directory and copy
`<input_dir>/<game>` to `<destination_dir>/<game>`. -/
def move_game (cfg : Config) (game : String) : List LogEvent × Option CopyAction :=
  let regionEvents : List LogEvent :=
    match regionSearch game with
    | some _ => []
    | none => [LogEvent.warnNoRegion game]
  let region := resolveRegion game
  match game.data.find? isAlphaNumChar with
  | none => (regionEvents ++ [LogEvent.warnNoAlnum game], none)
  | some c =>
    let first_char : String := if c.isDigit then "#" else ⟨[c]⟩
    let destination_dir := get_destination_dir cfg.output_dir region first_char
    let source := pathJoin cfg.input_dir game
    let destination := pathJoin destination_dir game
    (regionEvents ++ [LogEvent.infoCopy source destination],
     some ⟨game, region, first_char, destination_dir, source, destination⟩)

/-- Accumulated result of the `organize` loop. -/
structure RunResult where
  events : List LogEvent
  actions : List CopyAction
  count : Nat
  deriving DecidableEq, Repr

/-- One iteration of the inner loop of `organize` (lines 126-131): skip and
log `BIOS` files without counting; otherwise run `move_game` and increment
`game_count` (whether or not `move_game` skipped the file). -/
def processGame (cfg : Config) (game : String) : RunResult :=
  if isInfixB ['B', 'I', 'O', 'S'] game.data then
    ⟨[LogEvent.infoSkipBios game], [], 0⟩
  else
    ⟨(move_game cfg game).1, (move_game cfg game).2.toList, 1⟩

/-- The inner loop of `organize` over one directory's file list. -/
def organizeFiles (cfg : Config) : List String → RunResult
  | [] => ⟨[], [], 0⟩
  | g :: rest =>
    let r₁ := processGame cfg g
    let r₂ := organizeFiles cfg rest
    ⟨r₁.events ++ r₂.events, r₁.actions ++ r₂.actions, r₁.count + r₂.count⟩

/-- The outer loop of `organize` (line 125) over the `os.walk` result: each
entry is a `(dirpath, filenames)` pair, and — exactly as in the source,
which destructures `for _, _, games in os.walk(...)` — the directory path
is ignored. -/
def organizeWalk (cfg : Config) : List (String × List String) → RunResult
  | [] => ⟨[], [], 0⟩
  | (_, games) :: rest =>
    let r₁ := organizeFiles cfg games
    let r₂ := organizeWalk cfg rest
    ⟨r₁.events ++ r₂.events, r₁.actions ++ r₂.actions, r₁.count + r₂.count⟩

/-! ### Helper lemmas -/

lemma prefixB_iff : ∀ n l : List Char, prefixB n l = true ↔ n <+: l
  | [], l => by simp [prefixB]
  | a :: n, [] => by simp [prefixB]
  | a :: n, b :: l => by
    simp [prefixB, prefixB_iff n l, List.cons_prefix_cons, beq_iff_eq]

lemma isInfixB_iff : ∀ n l : List Char, isInfixB n l = true ↔ n <:+: l
  | n, [] => by cases n <;> simp [isInfixB, List.isEmpty]
  | n, c :: t => by
    rw [show isInfixB n (c :: t) = (prefixB n (c :: t) || isInfixB n t) from rfl]
    simp [prefixB_iff, isInfixB_iff n t, List.infix_cons_iff]

lemma strip_shrinks (l : List Char) : strip l <:+: l := by
  unfold strip
  have h₁ : l.dropWhile Char.isWhitespace <:+ l := List.dropWhile_suffix _
  have h₂ : ((l.dropWhile Char.isWhitespace).reverse.dropWhile Char.isWhitespace)
      <:+ (l.dropWhile Char.isWhitespace).reverse := List.dropWhile_suffix _
  have h₃ : ((l.dropWhile Char.isWhitespace).reverse.dropWhile Char.isWhitespace).reverse
      <+: l.dropWhile Char.isWhitespace := by
    rw [← List.reverse_suffix]
    simpa using h₂
  exact List.IsInfix.trans ( List.IsPrefix.isInfix h₃) ( List.IsSuffix.isInfix h₁)

lemma splitComma_headI : ∀ r : List Char,
    (splitComma r).headI = r.takeWhile (fun c => c != ',')
  | [] => rfl
  | c :: t => by
    unfold splitComma
    by_cases hc : c = ','
    · subst hc; simp [List.takeWhile_cons]
    · simp [hc, List.takeWhile_cons, splitComma_headI t]

lemma mem_splitComma_sub : ∀ r t : List Char, t ∈ splitComma r → t <:+: r
  | [], t, ht => by
    simp [splitComma] at ht
    simp [ht]
  | c :: r', t, ht => by
    unfold splitComma at ht
    by_cases hc : c = ','
    · simp [hc] at ht
      rcases ht with h | h
      · simp [h]
      · exact (mem_splitComma_sub r' t h).trans ( List.infix_cons ( List.infix_refl r'))
    · simp [hc] at ht
      rcases ht with h | h
      · have hpre : (splitComma r').headI <+: r' := by
          rw [splitComma_headI]
          exact List.takeWhile_prefix _
        have : t <+: c :: r' := by
          rw [h, List.cons_prefix_cons]
          exact ⟨rfl, hpre⟩
        exact List.IsPrefix.isInfix this
      · have hmem : t ∈ splitComma r' := List.mem_of_mem_tail h
        exact (mem_splitComma_sub r' t hmem).trans ( List.infix_cons ( List.infix_refl r'))

/-! ### Claim theorems -/

/-- C1: for every filename whose first parenthesized region group contains a
comma, if `USA` appears among the comma-separated tags (some tag trims to
`USA`), the resolved region is the string `USA`, regardless of the tag's
position in the list. -/
theorem C1_usa_among_tags_resolves_usa (game : String) (r t : List Char)
    (hr : regionSearch game = some r) (hc : ',' ∈ r)
    (ht : t ∈ splitComma r) (hU : strip t = ['U', 'S', 'A']) :
    resolveRegion game = "USA" := by
  have husa : ['U', 'S', 'A'] <:+: r :=
    (hU ▸ strip_shrinks t).trans (mem_splitComma_sub r t ht)
  unfold resolveRegion
  rw [hr]
  simp [hc, (isInfixB_iff _ _).mpr husa]

/-- C1 witness: `Legend of Zelda (Japan, USA).bin` has the multi-region
group `Japan, USA`, whose second tag trims to `USA`; the resolved region is
`USA`. -/
theorem C1_witness :
    regionSearch "Legend of Zelda (Japan, USA).bin"
        = some ['J', 'a', 'p', 'a', 'n', ',', ' ', 'U', 'S', 'A']
    ∧ resolveRegion "Legend of Zelda (Japan, USA).bin" = "USA" :=
  ⟨by decide,
   C1_usa_among_tags_resolves_usa _
     ['J', 'a', 'p', 'a', 'n', ',', ' ', 'U', 'S', 'A'] [' ', 'U', 'S', 'A']
     (by decide) (by decide) (by decide) (by decide)⟩

/-- C2: for every filename whose first parenthesized region group contains a
comma and does not contain `USA` as a substring, the resolved region is the
first comma-separated tag with surrounding whitespace trimmed. -/
theorem C2_first_tag_trimmed (game : String) (r : List Char)
    (hr : regionSearch game = some r) (hc : ',' ∈ r)
    (hU : isInfixB ['U', 'S', 'A'] r = false) :
    resolveRegion game = ⟨strip ((splitComma r).headI)⟩ := by
  unfold resolveRegion
  rw [hr]
  simp [hc, hU, splitComma_headI]

/-- C2 witness: `Game (Japan, Europe).bin` has group `Japan, Europe` with no
`USA`; the resolved region is the trimmed first tag, `Japan`. -/
theorem C2_witness :
    resolveRegion "Game (Japan, Europe).bin"
      = ⟨strip ((splitComma ['J', 'a', 'p', 'a', 'n', ',', ' ', 'E', 'u', 'r', 'o', 'p', 'e']).headI)⟩
    ∧ resolveRegion "Game (Japan, Europe).bin" = "Japan" :=
  ⟨C2_first_tag_trimmed _ _ (by decide) (by decide) (by decide), by decide⟩

/-- C3: for every (region, bucket) pair, a region that is exactly `Europe`,
`Japan` or `USA` resolves to `<output_root>/<region>/<bucket>`; every other
region resolves to `<output_root>/Other/<region>`, independently of the
bucket (the bucket is dropped). -/
theorem C3_destination_resolver (out region b b' : String) :
    (region = "Europe" ∨ region = "Japan" ∨ region = "USA" →
      get_destination_dir out region b = pathJoin (pathJoin out region) b)
    ∧ (¬(region = "Europe" ∨ region = "Japan" ∨ region = "USA") →
      get_destination_dir out region b = pathJoin (pathJoin out "Other") region
      ∧ get_destination_dir out region b = get_destination_dir out region b') := by
  unfold get_destination_dir
  refine ⟨fun h => ?_, fun h => ⟨?_, ?_⟩⟩ <;> simp [h]

/-- C3 witness: `Europe` with bucket `P` routes to `out/Europe/P`;
`Hong Kong` with any bucket routes to `out/Other/Hong Kong`. -/
theorem C3_witness :
    get_destination_dir "out" "Europe" "P" = pathJoin (pathJoin "out" "Europe") "P"
    ∧ get_destination_dir "out" "Hong Kong" "M" = pathJoin (pathJoin "out" "Other") "Hong Kong"
    ∧ get_destination_dir "out" "Hong Kong" "M" = get_destination_dir "out" "Hong Kong" "Z" :=
  ⟨(C3_destination_resolver "out" "Europe" "P" "P").1 (by decide),
   ((C3_destination_resolver "out" "Hong Kong" "M" "Z").2 (by decide)).1,
   ((C3_destination_resolver "out" "Hong Kong" "M" "Z").2 (by decide)).2⟩

lemma no_alnum_no_bios (game : String)
    (h : game.data.find? isAlphaNumChar = none) :
    isInfixB ['B', 'I', 'O', 'S'] game.data = false := by
  by_contra hb
  rw [Bool.not_eq_false] at hb
  have hmem : 'B' ∈ game.data := ((isInfixB_iff _ _).mp hb).subset (by simp)
  rw [List.find?_eq_none] at h
  exact h 'B' hmem (by decide)

/-- C4: the bucket is the filename's first `[A-Za-z0-9]` character,
normalized to `#` for a digit and kept as-is otherwise; with no such
character the file is skipped — `move_game` computes no destination and no
copy — and the remaining files are still processed. -/
theorem C4_bucket_extraction (cfg : Config) (game : String) :
    (∀ c, game.data.find? isAlphaNumChar = some c →
      ((move_game cfg game).2.map CopyAction.first_char)
        = some (if c.isDigit then "#" else ⟨[c]⟩))
    ∧ (game.data.find? isAlphaNumChar = none →
      (move_game cfg game).2 = none
      ∧ ∀ rest, (organizeFiles cfg (game :: rest)).actions
          = (organizeFiles cfg rest).actions) := by
  constructor
  · intro c hc
    simp [move_game, hc]
  · intro hn
    have h2 : (move_game cfg game).2 = none := by simp [move_game, hn]
    refine ⟨h2, fun rest => ?_⟩
    simp [organizeFiles, processGame, no_alnum_no_bios game hn, h2]

/-- C4 witness: `007 GoldenEye (Europe).rom` buckets to `#` from first
character `0`; `!!!.!!` has no alphanumeric character, is not copied, and a
following file is still processed. -/
theorem C4_witness :
    (("007 GoldenEye (Europe).rom" : String).data.find? isAlphaNumChar = some '0'
      ∧ ((move_game ⟨"in", "out"⟩ "007 GoldenEye (Europe).rom").2.map CopyAction.first_char)
          = some "#")
    ∧ (("!!!.!!" : String).data.find? isAlphaNumChar = none
      ∧ (move_game ⟨"in", "out"⟩ "!!!.!!").2 = none
      ∧ (organizeFiles ⟨"in", "out"⟩ ["!!!.!!", "Pac-Man Collection (USA).bin"]).actions
          = (organizeFiles ⟨"in", "out"⟩ ["Pac-Man Collection (USA).bin"]).actions) :=
  ⟨⟨by decide,
    Eq.trans
      ((C4_bucket_extraction ⟨"in", "out"⟩ "007 GoldenEye (Europe).rom").1 '0' (by decide))
      (by decide)⟩,
   ⟨by decide,
    ((C4_bucket_extraction ⟨"in", "out"⟩ "!!!.!!").2 (by decide)).1,
    ((C4_bucket_extraction ⟨"in", "out"⟩ "!!!.!!").2 (by decide)).2
      ["Pac-Man Collection (USA).bin"]⟩⟩

/-- C5 counterexample: `!!!.!!` contains no parenthesized group, yet it is
not routed — `move_game` skips it at bucket extraction — refuting the claim
that every such file is still routed. -/
theorem C5_counterexample :
    regionSearch "!!!.!!" = none
    ∧ (move_game ⟨"in", "out"⟩ "!!!.!!").2 = none := by
  decide

/-- C5 (amended): for every filename with no parenthesized group matching
the allowed character set, the resolved region is `USA` and a warning is
recorded; the file is routed provided it has an alphanumeric character
(otherwise it is skipped at bucket extraction). -/
theorem C5_no_region_defaults_usa (cfg : Config) (game : String)
    (h : regionSearch game = none) :
    resolveRegion game = "USA"
    ∧ LogEvent.warnNoRegion game ∈ (move_game cfg game).1
    ∧ (∀ c, game.data.find? isAlphaNumChar = some c →
        ∃ act, (move_game cfg game).2 = some act) := by
  refine ⟨by simp [resolveRegion, h], ?_, ?_⟩
  · cases hf : game.data.find? isAlphaNumChar <;> simp [move_game, h, hf]
  · intro c hc
    refine Option.isSome_iff_exists.mp ?_
    simp [move_game, hc]

/-- C5 witness: `Plain Game.bin` has no parenthesized group; its region
resolves to `USA`, the warning is logged, and it is routed. -/
theorem C5_witness :
    regionSearch "Plain Game.bin" = none
    ∧ resolveRegion "Plain Game.bin" = "USA"
    ∧ LogEvent.warnNoRegion "Plain Game.bin"
        ∈ (move_game ⟨"in", "out"⟩ "Plain Game.bin").1
    ∧ ∃ act, (move_game ⟨"in", "out"⟩ "Plain Game.bin").2 = some act :=
  ⟨by decide,
   (C5_no_region_defaults_usa ⟨"in", "out"⟩ "Plain Game.bin" (by decide)).1,
   (C5_no_region_defaults_usa ⟨"in", "out"⟩ "Plain Game.bin" (by decide)).2.1,
   (C5_no_region_defaults_usa ⟨"in", "out"⟩ "Plain Game.bin" (by decide)).2.2
     'P' (by decide)⟩

/-- C6: for every filename containing `BIOS` as a substring, the `organize`
loop iteration only logs the skip: no copy action is produced, no
destination is computed, and the file is not counted. -/
theorem C6_bios_skipped (cfg : Config) (game : String)
    (h : isInfixB ['B', 'I', 'O', 'S'] game.data = true) :
    processGame cfg game = ⟨[LogEvent.infoSkipBios game], [], 0⟩ := by
  simp [processGame, h]

/-- C6 witness: `BIOS_SystemFile.bin` is skipped entirely. -/
theorem C6_witness :
    processGame ⟨"in", "out"⟩ "BIOS_SystemFile.bin"
      = ⟨[LogEvent.infoSkipBios "BIOS_SystemFile.bin"], [], 0⟩ :=
  C6_bios_skipped ⟨"in", "out"⟩ "BIOS_SystemFile.bin" (by decide)

/-- C7: destination derivation is a pure deterministic function of the
filename and the output root: any two runs whose configurations agree on
the output root assign every filename the same destination directory and
destination path (the input root does not leak into them), and the
destination directory factors through `get_destination_dir` applied to the
two derived fields. -/
theorem C7_destination_pure (cfg cfg' : Config)
    (h : cfg.output_dir = cfg'.output_dir) (game : String) :
    ((move_game cfg game).2.map (fun a => (a.destination_dir, a.destination)))
      = ((move_game cfg' game).2.map (fun a => (a.destination_dir, a.destination)))
    ∧ ∀ act, (move_game cfg game).2 = some act →
        act.destination_dir
          = get_destination_dir cfg.output_dir act.region act.first_char
        ∧ act.destination = pathJoin act.destination_dir game := by
  constructor
  · cases hf : game.data.find? isAlphaNumChar <;> simp [move_game, hf, h]
  · intro act hact
    cases hf : game.data.find? isAlphaNumChar with
    | none => simp [move_game, hf] at hact
    | some c =>
      simp only [move_game, hf] at hact
      rw [Option.some.injEq] at hact
      subst hact
      exact ⟨rfl, rfl⟩

/-- C7 witness: two runs with distinct input roots but the same output root
give `Pac-Man Collection (USA).bin` the same destination, and that
destination factors through the resolver on (`USA`, `P`). -/
theorem C7_witness :
    ((move_game ⟨"in1", "out"⟩ "Pac-Man Collection (USA).bin").2.map
        (fun a => (a.destination_dir, a.destination)))
      = ((move_game ⟨"in2", "out"⟩ "Pac-Man Collection (USA).bin").2.map
        (fun a => (a.destination_dir, a.destination)))
    ∧ (("out/USA/P" : String) = get_destination_dir "out" "USA" "P"
      ∧ ("out/USA/P/Pac-Man Collection (USA).bin" : String)
          = pathJoin "out/USA/P" "Pac-Man Collection (USA).bin") :=
  ⟨(C7_destination_pure ⟨"in1", "out"⟩ ⟨"in2", "out"⟩ rfl
      "Pac-Man Collection (USA).bin").1,
   (C7_destination_pure ⟨"in1", "out"⟩ ⟨"in2", "out"⟩ rfl
      "Pac-Man Collection (USA).bin").2
     ⟨"Pac-Man Collection (USA).bin", "USA", "P", "out/USA/P",
      "in1/Pac-Man Collection (USA).bin",
      "out/USA/P/Pac-Man Collection (USA).bin"⟩
     (by decide)⟩

/-- C8 counterexample: `!!!.!!` is skipped by `move_game` for lacking a
bucket character, yet a run over it alone reports a processed-games count
of 1, not 0 — the count does not exclude bucket-skipped files. -/
theorem C8_counterexample :
    (move_game ⟨"in", "out"⟩ "!!!.!!").2 = none
    ∧ (organizeWalk ⟨"in", "out"⟩ [("in", ["!!!.!!"])]).count = 1 := by
  decide

lemma organizeFiles_count (cfg : Config) (games : List String) :
    (organizeFiles cfg games).count
      = (games.filter (fun g => !isInfixB ['B', 'I', 'O', 'S'] g.data)).length := by
  induction games with
  | nil => rfl
  | cons g rest ih =>
    cases hb : isInfixB ['B', 'I', 'O', 'S'] g.data
    · simp [organizeFiles, processGame, hb, ih, List.filter_cons]
      omega
    · simp [organizeFiles, processGame, hb, ih, List.filter_cons]

/-- C8 (amended): the processed-games count equals the number of enumerated
filenames without `BIOS` as a substring — it still includes files skipped
for lacking a bucket character. -/
theorem C8_count_includes_bucket_skipped (cfg : Config)
    (walk : List (String × List String)) :
    (organizeWalk cfg walk).count
      = ((walk.map Prod.snd).flatten.filter
          (fun g => !isInfixB ['B', 'I', 'O', 'S'] g.data)).length := by
  induction walk with
  | nil => rfl
  | cons e rest ih =>
    obtain ⟨d, games⟩ := e
    simp [organizeWalk, organizeFiles_count, ih, List.filter_append]

lemma joinChars_length_le (a b : List Char) :
    (joinChars a b).length ≤ a.length + b.length + 1 := by
  unfold joinChars
  split
  · omega
  · split
    · simp
    · simp
      omega

lemma le_joinChars_length (a b : List Char) (hb : b.head? ≠ some '/') :
    a.length + b.length ≤ (joinChars a b).length := by
  unfold joinChars
  split
  · exact absurd (by assumption) hb
  · split
    · simp
    · simp

lemma joinChars_getLast? (a b : List Char) (hb : b ≠ []) :
    (joinChars a b).getLast? = b.getLast? := by
  obtain ⟨x, hx⟩ := Option.isSome_iff_exists.mp (List.getLast?_isSome.mpr hb)
  unfold joinChars
  split
  · rfl
  · split
    · rw [List.getLast?_append, hx]
      rfl
    · rw [show a ++ '/' :: b = (a ++ ['/']) ++ b by simp,
        List.getLast?_append, hx]
      rfl

lemma joinChars_of_sep (a b : List Char) (hb : b.head? ≠ some '/')
    (ha : a ≠ []) (ha' : a.getLast? ≠ some '/') :
    joinChars a b = a ++ '/' :: b := by
  unfold joinChars
  rw [if_neg hb, if_neg]
  push_neg
  exact ⟨ha, ha'⟩

lemma joinChars_ne_nil (a b : List Char) (hb : b ≠ []) :
    joinChars a b ≠ [] := by
  unfold joinChars
  split
  · exact hb
  · split
    · simp [hb]
    · simp

/-- C9: for a candidate file found in a proper subdirectory of the input
root (as the recursive walk yields), the source path handed to the copy is
the input root joined with the bare filename, which is not the file's
actual location under that subdirectory. -/
theorem C9_source_drops_subdirectory (cfg : Config) (sub game : String)
    (act : CopyAction)
    (hs₁ : sub.data ≠ []) (hs₂ : sub.data.head? ≠ some '/')
    (hs₃ : sub.data.getLast? ≠ some '/')
    (hg : game.data.head? ≠ some '/')
    (hact : (move_game cfg game).2 = some act) :
    act.source = pathJoin cfg.input_dir game
    ∧ act.source ≠ pathJoin (pathJoin cfg.input_dir sub) game := by
  have hsrc : act.source = pathJoin cfg.input_dir game := by
    cases hf : game.data.find? isAlphaNumChar with
    | none => simp [move_game, hf] at hact
    | some c =>
      simp only [move_game, hf] at hact
      rw [Option.some.injEq] at hact
      subst hact
      rfl
  refine ⟨hsrc, hsrc ▸ ?_⟩
  intro heq
  have hdata := congrArg String.data heq
  have hlen := congrArg List.length hdata
  set a := cfg.input_dir.data with ha
  set s := sub.data with hs
  set g := game.data with hgd
  have h₁ : (joinChars a g).length ≤ a.length + g.length + 1 :=
    joinChars_length_le a g
  have h₂ : a.length + s.length ≤ (joinChars a s).length :=
    le_joinChars_length a s hs₂
  have h₃ : joinChars (joinChars a s) g = joinChars a s ++ '/' :: g :=
    joinChars_of_sep (joinChars a s) g hg (joinChars_ne_nil a s hs₁)
      (by rw [joinChars_getLast? a s hs₁]; exact hs₃)
  have h₄ : 1 ≤ s.length := List.length_pos.mpr hs₁
  rw [show (pathJoin cfg.input_dir game).data = joinChars a g from rfl,
    show (pathJoin (pathJoin cfg.input_dir sub) game).data
      = joinChars (joinChars a s) g from rfl, h₃] at hlen
  simp only [List.length_append, List.length_cons] at hlen
  omega

/-- C9 witness: a file `Game (USA).bin` under subdirectory `sub` of input
root `in` is read as `in/Game (USA).bin`, not `in/sub/Game (USA).bin`. -/
theorem C9_witness :
    (move_game ⟨"in", "out"⟩ "Game (USA).bin").2.map CopyAction.source
      = some (pathJoin "in" "Game (USA).bin")
    ∧ pathJoin "in" "Game (USA).bin"
      ≠ pathJoin (pathJoin "in" "sub") "Game (USA).bin" := by
  have h := C9_source_drops_subdirectory ⟨"in", "out"⟩ "sub" "Game (USA).bin"
    ⟨"Game (USA).bin", "USA", "G", "out/USA/G", "in/Game (USA).bin",
     "out/USA/G/Game (USA).bin"⟩
    (by decide) (by decide) (by decide) (by decide) (by decide)
  refine ⟨?_, by rw [← h.1]; exact h.2⟩
  rw [show (move_game (⟨"in", "out"⟩ : Config) "Game (USA).bin").2
      = some ⟨"Game (USA).bin", "USA", "G", "out/USA/G", "in/Game (USA).bin",
              "out/USA/G/Game (USA).bin"⟩ from by decide]
  exact congrArg some h.1

/-- C10: the filename `( ,).bin` has first parenthesized group ` ,`, whose
first tag strips to the empty string, so the resolved region is empty and
the destination directory is the output root joined with `Other` and the
empty string. -/
theorem C10_empty_region (cfg : Config) :
    resolveRegion "( ,).bin" = ""
    ∧ ((move_game cfg "( ,).bin").2.map CopyAction.destination_dir)
        = some (pathJoin (pathJoin cfg.output_dir "Other") "") := by
  exact ⟨by decide, rfl⟩

end GameOrganizer
